import Mathlib

/-
Verification of the file-upload and metadata-extraction service
(Express controller + S3/DynamoDB services + extraction Lambda).

The embedding models JavaScript strings as lists of characters and the
JavaScript string operations used by the code (String.prototype.split with
a one-character separator, split on a whitespace regex, substring, length)
as structurally recursive Lean functions.  Buffers are modelled by their
decoded character content (all inputs relevant to the claims are ASCII, so
byte length and decoded length coincide).  Calls into AWS SDK clients are
modelled as oracle parameters returning Except values (a thrown exception
is an error value) together with an explicit effect trace.
-/

namespace UploadAws

/-- JavaScript strings, modelled as lists of characters. -/
abbrev Str := List Char

/-- Characters matched by the regex class backslash-s (ASCII part):
space, tab, line feed, carriage return, vertical tab, form feed. -/
def isJsWhitespace (c : Char) : Bool :=
  c = ' ' || c = '\t' || c = '\n' || c = '\r' || c = '\x0b' || c = '\x0c'

/-- JavaScript String.prototype.split with a one-character separator:
splits at every occurrence of the separator, keeping empty segments.
For example splitting "a//b" on the slash gives ["a", "", "b"], and
splitting the empty string gives [""]. -/
def jsSplit (sep : Char) : Str → List Str
  | [] => [[]]
  | c :: rest =>
    if c = sep then [] :: jsSplit sep rest
    else
      match jsSplit sep rest with
      | [] => [[c]]
      | seg :: segs => (c :: seg) :: segs

theorem jsSplit_ne_nil (sep : Char) (s : Str) : jsSplit sep s ≠ [] := by
  induction s with
  | nil => simp [jsSplit]
  | cons c rest ih =>
    by_cases hc : c = sep
    · simp [jsSplit, hc]
    · simp only [jsSplit, if_neg hc]
      cases hs : jsSplit sep rest with
      | nil => exact absurd hs ih
      | cons seg segs => simp

theorem jsSplit_append (sep : Char) (a b : Str) (h : sep ∉ a) :
    jsSplit sep (a ++ sep :: b) = a :: jsSplit sep b := by
  induction a with
  | nil => simp [jsSplit]
  | cons c a ih =>
    have hc : ¬ c = sep := fun hcs => h (by simp [hcs])
    have ha : sep ∉ a := fun hs => h (List.mem_cons_of_mem c hs)
    simp only [List.cons_append, jsSplit, if_neg hc, List.append_eq]
    rw [ih ha]

theorem jsSplit_of_not_mem (sep : Char) (s : Str) (h : sep ∉ s) :
    jsSplit sep s = [s] := by
  induction s with
  | nil => simp [jsSplit]
  | cons c rest ih =>
    have hc : ¬ c = sep := fun hcs => h (by simp [hcs])
    have hr : sep ∉ rest := fun hs => h (List.mem_cons_of_mem c hs)
    simp only [jsSplit, if_neg hc, ih hr]

theorem mem_of_mem_jsSplit (sep : Char) (s : Str) (seg : Str) (c : Char)
    (hseg : seg ∈ jsSplit sep s) (hc : c ∈ seg) : c ∈ s := by
  induction s generalizing seg with
  | nil =>
    simp [jsSplit] at hseg
    subst hseg
    simp at hc
  | cons d rest ih =>
    by_cases hd : d = sep
    · simp only [jsSplit, if_pos hd] at hseg
      rcases List.mem_cons.mp hseg with h1 | h1
      · subst h1; simp at hc
      · exact List.mem_cons_of_mem d (ih seg h1 hc)
    · simp only [jsSplit, if_neg hd] at hseg
      cases hs : jsSplit sep rest with
      | nil => exact absurd hs (jsSplit_ne_nil sep rest)
      | cons seg0 segs =>
        rw [hs] at hseg
        rcases List.mem_cons.mp hseg with h1 | h1
        · subst h1
          rcases List.mem_cons.mp hc with h2 | h2
          · subst h2; simp
          · exact List.mem_cons_of_mem d (ih seg0 (by rw [hs]; simp) h2)
        · exact List.mem_cons_of_mem d
            (ih seg (by rw [hs]; exact List.mem_cons_of_mem seg0 h1) hc)

/-- JavaScript String.prototype.split on the whitespace-run regex
(one or more whitespace characters as separator), as a flagged
recursion: the flag records whether the previous character was part of a
separator run.  Matches the JavaScript semantics including the empty
segments produced at a leading or trailing separator and on the empty
string. -/
def jsSplitWsGo : Bool → Str → Str → List Str
  | _, [], cur => [cur.reverse]
  | inRun, c :: rest, cur =>
    if isJsWhitespace c then
      if inRun then jsSplitWsGo true rest cur
      else cur.reverse :: jsSplitWsGo true rest []
    else jsSplitWsGo false rest (c :: cur)

/-- Split a string on runs of whitespace, JavaScript regex-split
semantics. -/
def jsSplitWs (s : Str) : List Str :=
  jsSplitWsGo false s []

/-- Number of maximal whitespace runs in a string, with a flag telling
whether the scan starts inside a run. -/
def countWsRunsGo : Bool → Str → Nat
  | _, [] => 0
  | inRun, c :: rest =>
    if isJsWhitespace c then
      (if inRun then 0 else 1) + countWsRunsGo true rest
    else countWsRunsGo false rest

/-- Spec-side definition, for comparison with the code: the
whitespace-delimited token count of a string, i.e. the number of maximal
runs of non-whitespace characters. -/
def specTokensGo : Bool → Str → Nat
  | _, [] => 0
  | inTok, c :: rest =>
    if isJsWhitespace c then specTokensGo false rest
    else (if inTok then 0 else 1) + specTokensGo true rest

/-- Spec-side definition: the number of whitespace-delimited tokens. -/
def specTokenCount (s : Str) : Nat :=
  specTokensGo false s

theorem length_jsSplitWsGo (s : Str) : ∀ b cur,
    (jsSplitWsGo b s cur).length = countWsRunsGo b s + 1 := by
  induction s with
  | nil => intro b cur; simp [jsSplitWsGo, countWsRunsGo]
  | cons c rest ih =>
    intro b cur
    by_cases hc : isJsWhitespace c
    · cases b with
      | false => simp [jsSplitWsGo, countWsRunsGo, hc, ih]; omega
      | true => simp [jsSplitWsGo, countWsRunsGo, hc, ih]
    · simp [jsSplitWsGo, countWsRunsGo, hc, ih]

theorem length_jsSplitWs (s : Str) :
    (jsSplitWs s).length = countWsRunsGo false s + 1 :=
  length_jsSplitWsGo s false []

theorem tokens_runs (s : Str)
    (hlast : ∀ c, s.getLast? = some c → isJsWhitespace c = false)
    (h0 : s ≠ []) :
    (isJsWhitespace s.headI = false →
        specTokensGo false s = countWsRunsGo false s + 1 ∧
        specTokensGo true s = countWsRunsGo true s) ∧
    (isJsWhitespace s.headI = true →
        specTokensGo false s = countWsRunsGo false s ∧
        specTokensGo true s = countWsRunsGo true s + 1) := by
  induction s with
  | nil => exact absurd rfl h0
  | cons c rest ih =>
    cases rest with
    | nil =>
      have hc : isJsWhitespace c = false := hlast c rfl
      constructor
      · intro _
        simp [specTokensGo, countWsRunsGo, hc]
      · intro hh
        simp only [List.headI] at hh
        rw [hc] at hh
        exact absurd hh (by simp)
    | cons d r2 =>
      have hlast2 : ∀ x, (d :: r2).getLast? = some x → isJsWhitespace x = false := by
        intro x hx
        exact hlast x (by rw [List.getLast?_cons_cons]; exact hx)
      have ihr := ih hlast2 (by simp)
      cases hc : isJsWhitespace c <;> cases hd : isJsWhitespace d
      · -- c not whitespace, d not whitespace
        have hih := ihr.1 (by simpa [List.headI] using hd)
        constructor
        · intro _
          simp [specTokensGo, countWsRunsGo, hc, hd] at hih ⊢
          omega
        · intro hh
          simp only [List.headI] at hh
          rw [hc] at hh
          exact absurd hh (by simp)
      · -- c not whitespace, d whitespace
        have hih := ihr.2 (by simpa [List.headI] using hd)
        constructor
        · intro _
          simp [specTokensGo, countWsRunsGo, hc, hd] at hih ⊢
          omega
        · intro hh
          simp only [List.headI] at hh
          rw [hc] at hh
          exact absurd hh (by simp)
      · -- c whitespace, d not whitespace
        have hih := ihr.1 (by simpa [List.headI] using hd)
        constructor
        · intro hh
          simp only [List.headI] at hh
          rw [hc] at hh
          exact absurd hh (by simp)
        · intro _
          simp [specTokensGo, countWsRunsGo, hc, hd] at hih ⊢
          omega
      · -- c whitespace, d whitespace
        have hih := ihr.2 (by simpa [List.headI] using hd)
        constructor
        · intro hh
          simp only [List.headI] at hh
          rw [hc] at hh
          exact absurd hh (by simp)
        · intro _
          simp [specTokensGo, countWsRunsGo, hc, hd] at hih ⊢
          omega

/-- For nonempty text with non-whitespace first and last characters, the
length of the JavaScript whitespace-run split equals the
whitespace-delimited token count. -/
theorem jsSplitWs_length_eq_specTokenCount (s : Str) (h0 : s ≠ [])
    (h1 : isJsWhitespace s.headI = false)
    (h2 : ∀ c, s.getLast? = some c → isJsWhitespace c = false) :
    (jsSplitWs s).length = specTokenCount s := by
  have h := (tokens_runs s h2 h0).1 h1
  rw [length_jsSplitWs]
  unfold specTokenCount
  omega

/-
Embedding of src/utils/validation.ts
-/

/-- The fixed MIME-type allow list of validation.ts; the same list appears
as config.upload.allowedMimeTypes in config/index.ts and is used by the
multer file filter. -/
def allowedTypes : List Str :=
  [ "application/pdf".data,
    "image/jpeg".data,
    "image/png".data,
    "image/gif".data,
    "image/webp".data,
    "text/plain".data,
    "application/msword".data,
    "application/vnd.openxmlformats-officedocument.wordprocessingml.document".data ]

/-- validation.ts validateFileType: membership in the allow list. -/
def validateFileType (mimeType : Str) : Bool :=
  allowedTypes.contains mimeType

/-- The default size ceiling of validateFileSize and of
config.upload.maxFileSize: 50 * 1024 * 1024 bytes. -/
def maxFileSize : Nat := 50 * 1024 * 1024

/-- validation.ts validateFileSize: size less than or equal to the
ceiling. -/
def validateFileSize (size maxSize : Nat) : Bool :=
  decide (size ≤ maxSize)

/-- Characters kept unchanged by sanitizeFilename, the regex class
of letters, digits, dot and hyphen. -/
def isSanitizerAllowed (c : Char) : Bool :=
  ('a' ≤ c && c ≤ 'z') || ('A' ≤ c && c ≤ 'Z') || ('0' ≤ c && c ≤ '9') ||
    c = '.' || c = '-'

/-- First replace of sanitizeFilename: every character outside the
allowed class becomes an underscore. -/
def sanitizeReplace (s : Str) : Str :=
  s.map (fun c => if isSanitizerAllowed c then c else '_')

/-- Second replace of sanitizeFilename: collapse each run of
underscores to a single underscore.  The flag records whether the
previous kept character was an underscore. -/
def collapseUnderscores : Bool → Str → Str
  | _, [] => []
  | prevU, c :: rest =>
    if c = '_' then
      if prevU then collapseUnderscores true rest
      else '_' :: collapseUnderscores true rest
    else c :: collapseUnderscores false rest

/-- Third replace of sanitizeFilename: drop one leading underscore. -/
def stripLeadingUnderscore : Str → Str
  | '_' :: rest => rest
  | s => s

/-- validation.ts sanitizeFilename: replace disallowed characters by
underscores, collapse underscore runs, strip one leading and one
trailing underscore. -/
def sanitizeFilename (filename : Str) : Str :=
  (stripLeadingUnderscore
    (stripLeadingUnderscore
      (collapseUnderscores false (sanitizeReplace filename)).reverse).reverse)

/-- Hexadecimal digit, as accepted by the UUID regex of
fileController.ts with the case-insensitive flag. -/
def isHexDigit (c : Char) : Bool :=
  ('0' ≤ c && c ≤ '9') || ('a' ≤ c && c ≤ 'f') || ('A' ≤ c && c ≤ 'F')

/-- Embedding of the anchored UUID regex of FileController.getMetadata:
eight hex digits, hyphen, four hex digits, hyphen, a version digit 1-5
followed by three hex digits, hyphen, a variant character 8, 9, a or b
(case-insensitive) followed by three hex digits, hyphen, twelve hex
digits.  Splitting on the hyphen gives exactly five groups with those
shapes, which is equivalent to the anchored regex because hex digits
never contain a hyphen. -/
def isUuidFormat (s : Str) : Bool :=
  match jsSplit '-' s with
  | [a, b, c, d, e] =>
    a.length = 8 && b.length = 4 && c.length = 4 && d.length = 4 &&
    e.length = 12 &&
    (a ++ b ++ c ++ d ++ e).all isHexDigit &&
    (match c with
     | v :: _ => '1' ≤ v && v ≤ '5'
     | [] => false) &&
    (match d with
     | v :: _ => v = '8' || v = '9' || v = 'a' || v = 'b' || v = 'A' || v = 'B'
     | [] => false)
  | _ => false

/-
Embedding of src/utils/fileUtils.ts
-/

/-- fileUtils.ts generateS3Key.  The current time is passed explicitly
as the string produced by Date.prototype.toISOString; the code takes
the part before the letter T (the calendar date) and builds
uploads/date/fileId/filename. -/
def generateS3Key (nowIso : Str) (filename : Str) (fileId : Str) : Str :=
  let timestamp := (jsSplit 'T' nowIso).headI
  "uploads".data ++ '/' :: (timestamp ++ '/' :: (fileId ++ '/' :: filename))

/-
Embedding of src/types/index.ts
-/

/-- The textAnalysis object built by the text branch of the Lambda
extractor. -/
structure TextAnalysis where
  lines : Nat
  words : Nat
  characters : Nat
  deriving DecidableEq

/-- The exifData object built by the image branch of the Lambda
extractor. -/
structure ExifData where
  density : Option Nat
  hasProfile : Option Bool
  hasAlpha : Option Bool
  deriving DecidableEq

/-- types/index.ts ExtractedMetadata, with the dynamic extra fields the
extractor actually writes (textAnalysis, exifData, extractionError)
made explicit. -/
structure ExtractedMetadata where
  fileType : Str
  fileSize : Nat
  pages : Option Nat
  dimensions : Option (Nat × Nat)
  textContent : Option Str
  createdDate : Option Str
  modifiedDate : Option Str
  encoding : Option Str
  exifData : Option ExifData
  textAnalysis : Option TextAnalysis
  extractionError : Option Str
  deriving DecidableEq

/-- types/index.ts FileStatus. -/
inductive FileStatus where
  | uploading
  | uploaded
  | processing
  | processed
  | error
  deriving DecidableEq

/-- types/index.ts UserMetadata (the declared optional fields; the open
map of additional custom fields is not needed by any claim). -/
structure UserMetadata where
  author : Option Str
  expirationDate : Option Str
  description : Option Str
  tags : Option (List Str)
  deriving DecidableEq

/-- The empty user-metadata object, the result of the controller
default when no userMetadata form field is present. -/
def emptyUserMetadata : UserMetadata :=
  ⟨none, none, none, none⟩

/-- types/index.ts FileMetadata, the DynamoDB record. -/
structure FileMetadata where
  id : Str
  originalName : Str
  fileName : Str
  mimeType : Str
  size : Nat
  s3Key : Str
  s3Bucket : Str
  uploadedAt : Str
  userMetadata : UserMetadata
  extractedMetadata : Option ExtractedMetadata
  status : FileStatus
  deriving DecidableEq

/-- Embedding of the per-field bounds of uploadSchema in validation.ts:
author between 1 and 255 characters, description at most 1000
characters, at most 10 tags of at most 50 characters each.  The
expirationDate rule (ISO-8601 and strictly in the future) is
time-dependent and not needed by any failing input, so it is not part
of this Bool. -/
def uploadSchemaBounds (m : UserMetadata) : Bool :=
  (match m.author with
   | none => true
   | some a => 1 ≤ a.length && a.length ≤ 255) &&
  (match m.description with
   | none => true
   | some d => decide (d.length ≤ 1000)) &&
  (match m.tags with
   | none => true
   | some ts => ts.length ≤ 10 && ts.all (fun t => decide (t.length ≤ 50)))

/-
Embedding of src/services/dynamoService.ts (record-level effect of the
partial updates used by the claims)
-/

/-- DynamoDBService.updateFileStatus applied to a stored record: a
partial update of the status field. -/
def updateFileStatus (record : FileMetadata) (status : FileStatus) : FileMetadata :=
  { record with status := status }

/-- DynamoDBService.addExtractedMetadata applied to a stored record: a
single partial update writing extractedMetadata and setting the status
to processed. -/
def addExtractedMetadata (record : FileMetadata) (em : ExtractedMetadata) :
    FileMetadata :=
  { record with extractedMetadata := some em, status := FileStatus.processed }

/-
Embedding of src/lambda/metadataExtractor.ts
-/

/-- The value pdf-parse resolves with: page count, extracted text and
the optional info object with optional creation and modification
dates. -/
structure PdfData where
  numpages : Nat
  text : Str
  info : Option (Option Str × Option Str)
  deriving DecidableEq

/-- The value sharp(...).metadata() resolves with: optional width,
height and format, presence of an exif block, and the fields copied
into exifData. -/
structure SharpMeta where
  width : Option Nat
  height : Option Nat
  format : Option Str
  exif : Bool
  density : Option Nat
  hasProfile : Option Bool
  hasAlpha : Option Bool
  deriving DecidableEq

/-- The basic metadata object built first by extractFileMetadata:
file type and file size only. -/
def basicMetadata (mimeType : Str) (size : Nat) : ExtractedMetadata :=
  ⟨mimeType, size, none, none, none, none, none, none, none, none, none⟩

/-- The degraded result returned by the catch block of
extractFileMetadata: file type, file size and the error message. -/
def degradedMetadata (mimeType : Str) (size : Nat) (msg : Str) : ExtractedMetadata :=
  { basicMetadata mimeType size with extractionError := some msg }

/-- Lambda extractFileMetadata.  The two throwing library calls,
pdf-parse and sharp metadata decoding, are passed as oracles returning
Except values; an error value models a rejected promise, which the
catch block of the source converts into the degraded result.  The text
branch decodes the buffer as UTF-8 (the identity in this model),
truncates the stored excerpt to 5000 characters, and computes the
analysis over the full decoded text.  The function is total: no error
escapes it. -/
def extractFileMetadata
    (pdfParse : Str → Except Str PdfData)
    (sharpMetadata : Str → Except Str SharpMeta)
    (fileBuffer : Str) (mimeType : Str) : ExtractedMetadata :=
  if mimeType = "application/pdf".data then
    match pdfParse fileBuffer with
    | Except.error e => degradedMetadata mimeType fileBuffer.length e
    | Except.ok pdfData =>
      let m1 := { basicMetadata mimeType fileBuffer.length with
                    pages := some pdfData.numpages,
                    textContent := some (pdfData.text.take 5000) }
      match pdfData.info with
      | some info => { m1 with createdDate := info.1, modifiedDate := info.2 }
      | none => m1
  else if "image/".data.isPrefixOf mimeType then
    match sharpMetadata fileBuffer with
    | Except.error e => degradedMetadata mimeType fileBuffer.length e
    | Except.ok imageData =>
      let m1 := { basicMetadata mimeType fileBuffer.length with
                    dimensions := some (imageData.width.getD 0, imageData.height.getD 0),
                    encoding := imageData.format }
      if imageData.exif then
        { m1 with exifData := some ⟨imageData.density, imageData.hasProfile,
                                    imageData.hasAlpha⟩ }
      else m1
  else if mimeType = "text/plain".data then
    let textContent := fileBuffer
    { basicMetadata mimeType fileBuffer.length with
        textContent := some (textContent.take 5000),
        encoding := some "utf8".data,
        textAnalysis := some ⟨(jsSplit '\n' textContent).length,
                              (jsSplitWs textContent).length,
                              textContent.length⟩ }
  else
    basicMetadata mimeType fileBuffer.length

/-- The file-id recovery of processS3Record: split the object key on
the slash, take the segment at index 2; a missing segment and the
empty string are both falsy and make the handler return without
processing. -/
def recoverFileId (objectKey : Str) : Option Str :=
  match (jsSplit '/' objectKey)[2]? with
  | none => none
  | some s => if s.isEmpty then none else some s

/-
Embedding of src/controllers/fileController.ts, src/middleware/upload.ts
and the route chain of src/app.ts
-/

/-- The JSON body sent by the controller, with every field any endpoint
sets made explicit. -/
structure HttpResponse where
  status : Nat
  success : Bool
  error : Option Str
  fileId : Option Str
  data : Option FileMetadata
  message : Option Str
  downloadUrl : Option Str
  expiresIn : Option Nat
  deriving DecidableEq

/-- An error response body with the given status code and message. -/
def jsonError (status : Nat) (msg : Str) : HttpResponse :=
  ⟨status, false, some msg, none, none, none, none, none⟩

/-- The 201 body of a successful upload. -/
def uploadCreated (fileId : Str) : HttpResponse :=
  ⟨201, true, none, some fileId, none, some "File uploaded successfully".data,
    none, none⟩

/-- The 200 body of a successful metadata query. -/
def metadataOk (m : FileMetadata) : HttpResponse :=
  ⟨200, true, none, none, some m, none, none, none⟩

/-- The 200 body of a successful delete. -/
def deleteOk : HttpResponse :=
  ⟨200, true, none, none, none, some "File deleted successfully".data,
    none, none⟩

/-- The 200 body of a successful download-URL request. -/
def downloadOk (url : Str) : HttpResponse :=
  ⟨200, true, none, none, none, none, some url, some 3600⟩

/-- A call into S3 or DynamoDB issued by the controllers, recorded in
the order the calls are initiated. -/
inductive Effect where
  | s3PutObject (key : Str) (mimeType : Str) (fileId : Str)
      (originalName : Str) (uploadedBy : Str)
  | dynamoPutItem (record : FileMetadata)
  | dynamoUpdateStatus (fileId : Str) (status : FileStatus)
  | dynamoGetItem (fileId : Str)
  | s3DeleteObject (key : Str)
  | dynamoDeleteItem (fileId : Str)
  | s3Presign (key : Str) (expiresIn : Nat)
  deriving DecidableEq

/-- An uploaded file as delivered by multer memory storage. -/
structure MulterFile where
  originalname : Str
  mimetype : Str
  size : Nat
  buffer : Str
  deriving DecidableEq

/-- The parts of the multipart request the upload path reads: the
optional file and the optional raw userMetadata form field. -/
structure UploadRequest where
  file : Option MulterFile
  userMetadataRaw : Option Str
  deriving DecidableEq

/-- Outcomes of the three storage calls of the upload path.  An error
value models a rejected promise from the AWS SDK client. -/
structure UploadEnv where
  s3PutResult : Except Str Unit
  dynamoPutResult : Except Str Unit
  dynamoUpdateResult : Except Str Unit

/-- The FileRecord written by the controller on the happy path, with
status uploaded. -/
def uploadRecord (file : MulterFile) (userMetadata : UserMetadata)
    (fileId nowIso uploadedAt bucket : Str) : FileMetadata :=
  { id := fileId,
    originalName := file.originalname,
    fileName := file.originalname,
    mimeType := file.mimetype,
    size := file.size,
    s3Key := generateS3Key nowIso file.originalname fileId,
    s3Bucket := bucket,
    uploadedAt := uploadedAt,
    userMetadata := userMetadata,
    extractedMetadata := none,
    status := FileStatus.uploaded }

/-- FileController.uploadFile.  jsonParse is the JSON.parse oracle (an
error value models a thrown SyntaxError, which the surrounding
try/catch turns into the 500 response); env fixes the outcome of each
storage call; fileId is the uuid the controller generates; nowIso is
the Date.prototype.toISOString value used by generateS3Key; uploadedAt
the one stored in the record; bucket the configured S3 bucket.  The
second component is the trace of storage calls in initiation order. -/
def uploadFile (jsonParse : Str → Except Str UserMetadata) (env : UploadEnv)
    (fileId nowIso uploadedAt bucket : Str) (req : UploadRequest) :
    HttpResponse × List Effect :=
  match req.file with
  | none => (jsonError 400 "No file uploaded".data, [])
  | some file =>
    let parsed : Except Str UserMetadata :=
      match req.userMetadataRaw with
      | some s => jsonParse s
      | none => Except.ok emptyUserMetadata
    match parsed with
    | Except.error _ =>
      (jsonError 500 "Internal server error during upload".data, [])
    | Except.ok userMetadata =>
      if validateFileType file.mimetype = false then
        (jsonError 400 "Invalid file type. Allowed types: PDF, Images (JPEG, PNG, GIF, WebP), Text, Word documents".data, [])
      else if validateFileSize file.size maxFileSize = false then
        (jsonError 400 "File too large. Maximum size is 50MB".data, [])
      else
        let s3Key := generateS3Key nowIso file.originalname fileId
        let e1 := Effect.s3PutObject s3Key file.mimetype fileId
          file.originalname (userMetadata.author.getD "anonymous".data)
        match env.s3PutResult with
        | Except.error _ =>
          (jsonError 500 "Internal server error during upload".data, [e1])
        | Except.ok _ =>
          let record := uploadRecord file userMetadata fileId nowIso uploadedAt bucket
          let e2 := Effect.dynamoPutItem record
          match env.dynamoPutResult with
          | Except.error _ =>
            (jsonError 500 "Internal server error during upload".data, [e1, e2])
          | Except.ok _ =>
            let e3 := Effect.dynamoUpdateStatus fileId FileStatus.processing
            match env.dynamoUpdateResult with
            | Except.error _ =>
              (jsonError 500 "Internal server error during upload".data,
                [e1, e2, e3])
            | Except.ok _ => (uploadCreated fileId, [e1, e2, e3])

/-- The POST /upload route chain of app.ts: multer (whose file filter
rejects MIME types outside config.upload.allowedMimeTypes with a 400
AppError, and whose size limit rejects larger files with a 400
LIMIT_FILE_SIZE response) followed by FileController.uploadFile.  When
no file part is present multer passes through and the controller
answers. -/
def routeUpload (jsonParse : Str → Except Str UserMetadata) (env : UploadEnv)
    (fileId nowIso uploadedAt bucket : Str) (req : UploadRequest) :
    HttpResponse × List Effect :=
  match req.file with
  | some file =>
    if allowedTypes.contains file.mimetype = false then
      (jsonError 400 "Invalid file type".data, [])
    else if decide (file.size ≤ maxFileSize) = false then
      (jsonError 400 "File too large. Maximum size is 50MB".data, [])
    else uploadFile jsonParse env fileId nowIso uploadedAt bucket req
  | none => uploadFile jsonParse env fileId nowIso uploadedAt bucket req

/-- FileController.getMetadata.  storeGet is the DynamoDB lookup
oracle: an error models a rejected call (the catch answers 500); ok
none models a missing item. -/
def getMetadata (storeGet : Str → Except Str (Option FileMetadata))
    (fileId : Str) : HttpResponse × List Effect :=
  if isUuidFormat fileId = false then
    (jsonError 400 "Invalid file ID format".data, [])
  else
    match storeGet fileId with
    | Except.error _ =>
      (jsonError 500 "Internal server error while retrieving metadata".data,
        [Effect.dynamoGetItem fileId])
    | Except.ok none =>
      (jsonError 404 "File not found".data, [Effect.dynamoGetItem fileId])
    | Except.ok (some m) => (metadataOk m, [Effect.dynamoGetItem fileId])

/-- FileController.deleteFile: record lookup first (no id-syntax
check), then S3 delete, then DynamoDB delete. -/
def deleteFile (storeGet : Str → Except Str (Option FileMetadata))
    (s3DeleteResult : Except Str Unit) (dynamoDeleteResult : Except Str Unit)
    (fileId : Str) : HttpResponse × List Effect :=
  match storeGet fileId with
  | Except.error _ =>
    (jsonError 500 "Internal server error while deleting file".data,
      [Effect.dynamoGetItem fileId])
  | Except.ok none =>
    (jsonError 404 "File not found".data, [Effect.dynamoGetItem fileId])
  | Except.ok (some m) =>
    match s3DeleteResult with
    | Except.error _ =>
      (jsonError 500 "Internal server error while deleting file".data,
        [Effect.dynamoGetItem fileId, Effect.s3DeleteObject m.s3Key])
    | Except.ok _ =>
      match dynamoDeleteResult with
      | Except.error _ =>
        (jsonError 500 "Internal server error while deleting file".data,
          [Effect.dynamoGetItem fileId, Effect.s3DeleteObject m.s3Key,
            Effect.dynamoDeleteItem fileId])
      | Except.ok _ =>
        (deleteOk,
          [Effect.dynamoGetItem fileId, Effect.s3DeleteObject m.s3Key,
            Effect.dynamoDeleteItem fileId])

/-- FileController.getDownloadUrl: record lookup first (no id-syntax
check), then a presigned URL for the stored key with a 3600 second
expiry. -/
def getDownloadUrl (storeGet : Str → Except Str (Option FileMetadata))
    (presign : Str → Except Str Str) (fileId : Str) :
    HttpResponse × List Effect :=
  match storeGet fileId with
  | Except.error _ =>
    (jsonError 500 "Internal server error while generating download URL".data,
      [Effect.dynamoGetItem fileId])
  | Except.ok none =>
    (jsonError 404 "File not found".data, [Effect.dynamoGetItem fileId])
  | Except.ok (some m) =>
    match presign m.s3Key with
    | Except.error _ =>
      (jsonError 500 "Internal server error while generating download URL".data,
        [Effect.dynamoGetItem fileId, Effect.s3Presign m.s3Key 3600])
    | Except.ok url =>
      (downloadOk url,
        [Effect.dynamoGetItem fileId, Effect.s3Presign m.s3Key 3600])

/-
Claim theorems
-/

/-- The date part used by generateS3Key contains no slash whenever the
toISOString input contains no slash, because every character of a split
segment comes from the split string. -/
theorem no_slash_in_datePart (nowIso : Str) (h : '/' ∉ nowIso) :
    '/' ∉ (jsSplit 'T' nowIso).headI := by
  intro hmem
  cases hsplit : jsSplit 'T' nowIso with
  | nil => exact absurd hsplit (jsSplit_ne_nil 'T' nowIso)
  | cons a l =>
    rw [hsplit] at hmem
    simp only [List.headI] at hmem
    exact h (mem_of_mem_jsSplit 'T' nowIso a '/' (by rw [hsplit]; simp) hmem)

/-- The full split of a generated key, for segments free of slashes. -/
theorem jsSplit_generateS3Key (nowIso filename fileId : Str)
    (hdate : '/' ∉ nowIso) (hid : '/' ∉ fileId) :
    jsSplit '/' (generateS3Key nowIso filename fileId)
      = "uploads".data :: (jsSplit 'T' nowIso).headI :: fileId ::
          jsSplit '/' filename := by
  have hts := no_slash_in_datePart nowIso hdate
  show jsSplit '/' ("uploads".data ++ '/' ::
      ((jsSplit 'T' nowIso).headI ++ '/' :: (fileId ++ '/' :: filename))) = _
  rw [jsSplit_append '/' "uploads".data _ (by decide)]
  rw [jsSplit_append '/' (jsSplit 'T' nowIso).headI _ hts]
  rw [jsSplit_append '/' fileId _ hid]

/-- Claim C2: for every file id (ids contain no slash; every generated
uuid satisfies this) and every original filename, the id is the segment
at index 2 of the storage key split on the slash, and the dispatcher
recovery function returns exactly the id. -/
theorem s3Key_split_index_two_is_fileId (nowIso filename fileId : Str)
    (hdate : '/' ∉ nowIso) (hid : '/' ∉ fileId) (hne : fileId ≠ []) :
    (jsSplit '/' (generateS3Key nowIso filename fileId))[2]? = some fileId ∧
    recoverFileId (generateS3Key nowIso filename fileId) = some fileId := by
  have hsplit := jsSplit_generateS3Key nowIso filename fileId hdate hid
  constructor
  · rw [hsplit]
    simp [List.getElem?_cons_succ, List.getElem?_cons_zero]
  · unfold recoverFileId
    rw [hsplit]
    cases fileId with
    | nil => exact absurd rfl hne
    | cons c rest => simp [List.isEmpty]

/-- Witness for claim C2 at a concrete date, filename and uuid. -/
theorem s3Key_split_index_two_is_fileId_witness :
    recoverFileId
      (generateS3Key "2025-03-04T12:00:00.000Z".data "report final.pdf".data
        "0f8fad5b-d9cb-469f-a165-70867728950e".data)
      = some "0f8fad5b-d9cb-469f-a165-70867728950e".data :=
  (s3Key_split_index_two_is_fileId "2025-03-04T12:00:00.000Z".data
    "report final.pdf".data "0f8fad5b-d9cb-469f-a165-70867728950e".data
    (by decide) (by decide) (by decide)).2

/-- Characters that can appear in the output of sanitizeFilename:
the kept class plus the underscore. -/
def isSanitizerOutputChar (c : Char) : Bool :=
  isSanitizerAllowed c || c = '_'

/-- Counterexample to claim C9 as stated: for the original filename
"my file!.pdf" the filename segment of the generated key is the raw
original name, which differs from the sanitized name and contains
characters outside the sanitizer alphabet, so the key does not use the
sanitized filename. -/
theorem s3Key_filename_not_sanitized_counterexample :
    (jsSplit '/' (generateS3Key "2024-01-15T10:30:00.000Z".data
        "my file!.pdf".data "123e4567-e89b-42d3-a456-426614174000".data))[3]?
      = some "my file!.pdf".data ∧
    sanitizeFilename "my file!.pdf".data = "my_file_.pdf".data ∧
    "my file!.pdf".data ≠ "my_file_.pdf".data ∧
    "my file!.pdf".data.all isSanitizerOutputChar = false := by
  refine ⟨?_, by decide, by decide, by decide⟩
  decide

/-- Claim C9, amended: the key written to the object store has the form
uploads/{ISO-date}/{id}/{original-filename} with the filename segment
being the original filename verbatim; the controller never calls
sanitizeFilename, so the segment is not sanitized. -/
theorem s3Key_shape_raw_filename (nowIso filename fileId : Str)
    (hdate : '/' ∉ nowIso) (hid : '/' ∉ fileId) (hfn : '/' ∉ filename) :
    jsSplit '/' (generateS3Key nowIso filename fileId)
      = ["uploads".data, (jsSplit 'T' nowIso).headI, fileId, filename] := by
  rw [jsSplit_generateS3Key nowIso filename fileId hdate hid]
  rw [jsSplit_of_not_mem '/' filename hfn]

/-- Witness for the amended claim C9 at concrete inputs. -/
theorem s3Key_shape_raw_filename_witness :
    jsSplit '/' (generateS3Key "2024-01-15T10:30:00.000Z".data
        "notes.txt".data "123e4567-e89b-42d3-a456-426614174000".data)
      = ["uploads".data, "2024-01-15".data,
          "123e4567-e89b-42d3-a456-426614174000".data, "notes.txt".data] := by
  have h := s3Key_shape_raw_filename "2024-01-15T10:30:00.000Z".data
    "notes.txt".data "123e4567-e89b-42d3-a456-426614174000".data
    (by decide) (by decide) (by decide)
  rw [h]
  decide

/-- A MIME type starting with image/ is not application/pdf. -/
theorem image_mime_ne_pdf (mimeType : Str)
    (h : "image/".data.isPrefixOf mimeType = true) :
    ¬ mimeType = "application/pdf".data := by
  intro heq
  subst heq
  revert h
  decide

/-- A concrete stored record used by witnesses. -/
def sampleRecord : FileMetadata :=
  { id := "123e4567-e89b-42d3-a456-426614174000".data,
    originalName := "doc.pdf".data,
    fileName := "doc.pdf".data,
    mimeType := "application/pdf".data,
    size := 4,
    s3Key := "uploads/2024-01-15/123e4567-e89b-42d3-a456-426614174000/doc.pdf".data,
    s3Bucket := "upload-test-bucket".data,
    uploadedAt := "2024-01-15T10:30:00.000Z".data,
    userMetadata := emptyUserMetadata,
    extractedMetadata := none,
    status := FileStatus.processing }

/-- Claim C1: whenever the type-specific extraction step fails (the
pdf-parse call for a PDF, or the sharp metadata call for an image), the
dispatcher returns a degraded result holding only the file type, the
file size and the extraction error message, and the record update still
sets the status to processed; extractFileMetadata is a total function,
so no error propagates out of the extraction step. -/
theorem extraction_failure_degrades
    (pdfParse : Str → Except Str PdfData)
    (sharpMetadata : Str → Except Str SharpMeta)
    (fileBuffer mimeType e : Str) (record : FileMetadata)
    (h : (mimeType = "application/pdf".data ∧
            pdfParse fileBuffer = Except.error e) ∨
         ("image/".data.isPrefixOf mimeType = true ∧
            sharpMetadata fileBuffer = Except.error e)) :
    extractFileMetadata pdfParse sharpMetadata fileBuffer mimeType
      = ⟨mimeType, fileBuffer.length, none, none, none, none, none, none,
          none, none, some e⟩ ∧
    (addExtractedMetadata record
        (extractFileMetadata pdfParse sharpMetadata fileBuffer mimeType)).status
      = FileStatus.processed ∧
    (addExtractedMetadata record
        (extractFileMetadata pdfParse sharpMetadata fileBuffer mimeType)).extractedMetadata
      = some ⟨mimeType, fileBuffer.length, none, none, none, none, none, none,
          none, none, some e⟩ := by
  have hres : extractFileMetadata pdfParse sharpMetadata fileBuffer mimeType
      = ⟨mimeType, fileBuffer.length, none, none, none, none, none, none,
          none, none, some e⟩ := by
    rcases h with ⟨hm, hp⟩ | ⟨hm, hs⟩
    · subst hm
      simp [extractFileMetadata, hp, degradedMetadata, basicMetadata]
    · have hne := image_mime_ne_pdf mimeType hm
      simp [extractFileMetadata, if_neg hne, hm, hs, degradedMetadata,
        basicMetadata]
  exact ⟨hres, by simp [addExtractedMetadata], by simp [addExtractedMetadata, hres]⟩

/-- Witness for claim C1: a PDF whose parse fails yields the degraded
result and a processed record. -/
theorem extraction_failure_degrades_witness :
    extractFileMetadata (fun _ => Except.error "bad xref".data)
        (fun _ => Except.error "x".data) "junk".data "application/pdf".data
      = ⟨"application/pdf".data, 4, none, none, none, none, none, none,
          none, none, some "bad xref".data⟩ ∧
    (addExtractedMetadata sampleRecord
        (extractFileMetadata (fun _ => Except.error "bad xref".data)
          (fun _ => Except.error "x".data) "junk".data
          "application/pdf".data)).status
      = FileStatus.processed := by
  have h := extraction_failure_degrades (fun _ => Except.error "bad xref".data)
    (fun _ => Except.error "x".data) "junk".data "application/pdf".data
    "bad xref".data sampleRecord (Or.inl ⟨rfl, rfl⟩)
  exact ⟨h.1, h.2.1⟩

/-- Counterexample to claim C3 as stated: for the plain-text content
consisting of a space followed by the letter a, the code computes a
word count of 2 from the whitespace-run split, while the
whitespace-delimited token count of the text is 1, so the words field
does not equal the token count. -/
theorem text_word_count_counterexample :
    (extractFileMetadata (fun _ => Except.error [])
        (fun _ => Except.error []) " a".data "text/plain".data).textAnalysis
      = some ⟨1, 2, 2⟩ ∧
    specTokenCount " a".data = 1 ∧
    ¬ ((extractFileMetadata (fun _ => Except.error [])
          (fun _ => Except.error []) " a".data
          "text/plain".data).textAnalysis.map (fun t => t.words)
        = some (specTokenCount " a".data)) := by
  refine ⟨by decide, by decide, by decide⟩

/-- Claim C3, amended: the text branch computes lines as the number of
newline-delimited segments of the full decoded text, characters as the
length of the full decoded text, and words as the length of the
whitespace-run split of the full text, which equals the
whitespace-delimited token count whenever the text is nonempty and
neither begins nor ends with whitespace (for other texts the split
carries one extra empty segment per whitespace boundary); the stored
excerpt is truncated to 5000 characters but the analysis is over the
full text. -/
theorem text_analysis_over_full_text
    (pdfParse : Str → Except Str PdfData)
    (sharpMetadata : Str → Except Str SharpMeta)
    (fileBuffer : Str)
    (h0 : fileBuffer ≠ [])
    (h1 : isJsWhitespace fileBuffer.headI = false)
    (h2 : ∀ c, fileBuffer.getLast? = some c → isJsWhitespace c = false) :
    (extractFileMetadata pdfParse sharpMetadata fileBuffer
        "text/plain".data).textAnalysis
      = some ⟨(jsSplit '\n' fileBuffer).length, specTokenCount fileBuffer,
              fileBuffer.length⟩ ∧
    (extractFileMetadata pdfParse sharpMetadata fileBuffer
        "text/plain".data).textContent
      = some (fileBuffer.take 5000) := by
  have hwords := jsSplitWs_length_eq_specTokenCount fileBuffer h0 h1 h2
  constructor
  · simp [extractFileMetadata, basicMetadata, hwords]
  · simp [extractFileMetadata, basicMetadata]

/-- Witness for the amended claim C3: a ten-line file with two
characters per line yields lines 10, words 10 and characters 29. -/
theorem text_analysis_over_full_text_witness :
    (extractFileMetadata (fun _ => Except.error [])
        (fun _ => Except.error [])
        "ab\nab\nab\nab\nab\nab\nab\nab\nab\nab".data
        "text/plain".data).textAnalysis
      = some ⟨10, 10, 29⟩ := by
  have h := text_analysis_over_full_text (fun _ => Except.error [])
    (fun _ => Except.error [])
    "ab\nab\nab\nab\nab\nab\nab\nab\nab\nab".data
    (by decide) (by decide) (by decide)
  rw [h.1]
  decide

/-- A well-formed uuid used by concrete instances. -/
def uuid0 : Str := "123e4567-e89b-42d3-a456-426614174000".data

/-- A toISOString value used by concrete instances. -/
def now0 : Str := "2024-01-15T10:30:00.000Z".data

/-- The uploadedAt value used by concrete instances. -/
def uploadedAt0 : Str := "2024-01-15T10:30:00.001Z".data

/-- The configured bucket used by concrete instances. -/
def bucket0 : Str := "upload-test-bucket".data

/-- A valid plain-text upload used by concrete instances. -/
def textFile0 : MulterFile :=
  ⟨"notes.txt".data, "text/plain".data, 10, "0123456789".data⟩

/-- A storage environment in which every call succeeds. -/
def allOkEnv : UploadEnv :=
  ⟨Except.ok (), Except.ok (), Except.ok ()⟩

/-- A JSON.parse oracle that succeeds with the empty object. -/
def emptyJsonParse : Str → Except Str UserMetadata :=
  fun _ => Except.ok emptyUserMetadata

/-- Claim C4, failing input: a valid text upload whose userMetadata
form field is malformed JSON.  JSON.parse throws inside the try block
of uploadFile and the catch answers 500, not 400; no Joi validation
middleware runs on the upload route, so nothing turns this into a
BadRequest.  The response is the generic internal-server-error body and
no storage call is made. -/
theorem malformed_userMetadata_gives_500 :
    routeUpload (fun _ => Except.error "Unexpected end of JSON input".data)
        allOkEnv uuid0 now0 uploadedAt0 bucket0
        ⟨some textFile0, some "\x7b".data⟩
      = (jsonError 500 "Internal server error during upload".data, []) ∧
    (routeUpload (fun _ => Except.error "Unexpected end of JSON input".data)
        allOkEnv uuid0 now0 uploadedAt0 bucket0
        ⟨some textFile0, some "\x7b".data⟩).1.status = 500 := by
  refine ⟨by decide, by decide⟩

/-- An author string longer than the 255-character bound of
uploadSchema. -/
def longAuthor : Str := List.replicate 300 'a'

/-- A parsed userMetadata object violating the author bound. -/
def oversizedMeta : UserMetadata := ⟨some longAuthor, none, none, none⟩

set_option maxRecDepth 8000 in
/-- Claim C5, failing input: an upload whose userMetadata has a
300-character author.  uploadSchema encodes the bound but is never
invoked on the upload route, so the controller accepts the request,
stores the record with the oversized author, and answers 201. -/
theorem oversized_author_accepted :
    routeUpload (fun _ => Except.ok oversizedMeta) allOkEnv uuid0 now0
        uploadedAt0 bucket0 ⟨some textFile0, some "x".data⟩
      = (uploadCreated uuid0,
          [Effect.s3PutObject (generateS3Key now0 "notes.txt".data uuid0)
              "text/plain".data uuid0 "notes.txt".data longAuthor,
            Effect.dynamoPutItem
              (uploadRecord textFile0 oversizedMeta uuid0 now0 uploadedAt0 bucket0),
            Effect.dynamoUpdateStatus uuid0 FileStatus.processing]) ∧
    (uploadRecord textFile0 oversizedMeta uuid0 now0 uploadedAt0
        bucket0).userMetadata.author = some longAuthor ∧
    longAuthor.length = 300 ∧
    uploadSchemaBounds oversizedMeta = false := by
  refine ⟨by decide, by decide, by decide, by decide⟩

/-- Claim C6: a fileId that fails the UUID-format test is answered 400
before any DynamoDB access; a well-formed fileId with no stored item is
answered 404 after exactly one lookup; the two responses are
distinct. -/
theorem metadata_id_validation
    (storeGet : Str → Except Str (Option FileMetadata)) (fileId : Str) :
    (isUuidFormat fileId = false →
      getMetadata storeGet fileId
        = (jsonError 400 "Invalid file ID format".data, [])) ∧
    (isUuidFormat fileId = true → storeGet fileId = Except.ok none →
      getMetadata storeGet fileId
        = (jsonError 404 "File not found".data,
            [Effect.dynamoGetItem fileId])) ∧
    jsonError 400 "Invalid file ID format".data
      ≠ jsonError 404 "File not found".data := by
  refine ⟨?_, ?_, by decide⟩
  · intro h
    simp [getMetadata, h]
  · intro h hmiss
    simp [getMetadata, h, hmiss]

/-- Witness for claim C6: the literal id invalid-id is answered 400
with no lookup, and a never-issued well-formed uuid is answered 404. -/
theorem metadata_id_validation_witness :
    getMetadata (fun _ => Except.ok none) "invalid-id".data
      = (jsonError 400 "Invalid file ID format".data, []) ∧
    getMetadata (fun _ => Except.ok none) uuid0
      = (jsonError 404 "File not found".data,
          [Effect.dynamoGetItem uuid0]) := by
  have h1 := metadata_id_validation (fun _ => Except.ok none) "invalid-id".data
  have h2 := metadata_id_validation (fun _ => Except.ok none) uuid0
  exact ⟨h1.1 (by decide), h2.2.1 (by decide) rfl⟩

/-- Claim C7: an upload whose MIME type is outside the allow list, or
whose size exceeds the 50 MiB ceiling, is answered 400 by the upload
route with an empty effect trace: no blob write and no record write is
initiated. -/
theorem invalid_type_or_oversize_rejected
    (jsonParse : Str → Except Str UserMetadata) (env : UploadEnv)
    (fileId nowIso uploadedAt bucket : Str) (file : MulterFile)
    (raw : Option Str)
    (h : validateFileType file.mimetype = false ∨
         validateFileSize file.size maxFileSize = false) :
    (routeUpload jsonParse env fileId nowIso uploadedAt bucket
        ⟨some file, raw⟩).1.status = 400 ∧
    (routeUpload jsonParse env fileId nowIso uploadedAt bucket
        ⟨some file, raw⟩).1.success = false ∧
    (routeUpload jsonParse env fileId nowIso uploadedAt bucket
        ⟨some file, raw⟩).2 = [] := by
  rcases h with hT | hS
  · unfold validateFileType at hT
    simp only [routeUpload]
    rw [if_pos hT]
    exact ⟨rfl, rfl, rfl⟩
  · unfold validateFileSize at hS
    by_cases hc : allowedTypes.contains file.mimetype = false
    · simp only [routeUpload]
      rw [if_pos hc]
      exact ⟨rfl, rfl, rfl⟩
    · simp only [routeUpload]
      rw [if_neg hc, if_pos hS]
      exact ⟨rfl, rfl, rfl⟩

/-- Witness for claim C7: an executable upload is rejected with 400 and
no storage call. -/
theorem invalid_type_or_oversize_rejected_witness :
    (routeUpload emptyJsonParse allOkEnv uuid0 now0 uploadedAt0 bucket0
        ⟨some ⟨"malware.exe".data, "application/x-msdownload".data, 10,
          "MZ".data⟩, none⟩).1.status = 400 ∧
    (routeUpload emptyJsonParse allOkEnv uuid0 now0 uploadedAt0 bucket0
        ⟨some ⟨"malware.exe".data, "application/x-msdownload".data, 10,
          "MZ".data⟩, none⟩).2 = [] := by
  have h := invalid_type_or_oversize_rejected emptyJsonParse allOkEnv uuid0
    now0 uploadedAt0 bucket0
    ⟨"malware.exe".data, "application/x-msdownload".data, 10, "MZ".data⟩
    none (Or.inl (by decide))
  exact ⟨h.1, h.2.2⟩

/-- Claim C8: on the upload path with a file present and userMetadata
parsed, the trace of storage calls is always an initial segment of the
blob write, then the record write with status uploaded, then the status
update to processing; the record write appears only if the blob write
succeeded, the status update only if both earlier calls succeeded, and
the 201 response occurs exactly when all three ran and succeeded. -/
theorem upload_effect_ordering
    (jsonParse : Str → Except Str UserMetadata) (env : UploadEnv)
    (fileId nowIso uploadedAt bucket : Str) (file : MulterFile)
    (raw : Option Str) (userMetadata : UserMetadata)
    (hparse : (match raw with
               | some s => jsonParse s
               | none => Except.ok emptyUserMetadata)
        = Except.ok userMetadata) :
    let e1 := Effect.s3PutObject (generateS3Key nowIso file.originalname fileId)
      file.mimetype fileId file.originalname
      (userMetadata.author.getD "anonymous".data)
    let record := uploadRecord file userMetadata fileId nowIso uploadedAt bucket
    let e2 := Effect.dynamoPutItem record
    let e3 := Effect.dynamoUpdateStatus fileId FileStatus.processing
    let r := uploadFile jsonParse env fileId nowIso uploadedAt bucket
      ⟨some file, raw⟩
    (r.2 = [] ∨ r.2 = [e1] ∨ r.2 = [e1, e2] ∨ r.2 = [e1, e2, e3]) ∧
    (e2 ∈ r.2 → env.s3PutResult = Except.ok ()) ∧
    (e3 ∈ r.2 → env.s3PutResult = Except.ok () ∧
      env.dynamoPutResult = Except.ok ()) ∧
    record.status = FileStatus.uploaded ∧
    (r.1 = uploadCreated fileId →
      r.2 = [e1, e2, e3] ∧ env.dynamoUpdateResult = Except.ok ()) := by
  intro e1 record e2 e3 r
  have hr : r = uploadFile jsonParse env fileId nowIso uploadedAt bucket
      ⟨some file, raw⟩ := rfl
  rw [uploadFile] at hr
  simp only [hparse] at hr
  by_cases ht : validateFileType file.mimetype = false
  · rw [if_pos ht] at hr
    refine ⟨Or.inl (by rw [hr]), ?_, ?_, rfl, ?_⟩
    · intro hm; rw [hr] at hm; simp at hm
    · intro hm; rw [hr] at hm; simp at hm
    · intro he; rw [hr] at he; simp [jsonError, uploadCreated] at he
  · rw [if_neg ht] at hr
    by_cases hs : validateFileSize file.size maxFileSize = false
    · rw [if_pos hs] at hr
      refine ⟨Or.inl (by rw [hr]), ?_, ?_, rfl, ?_⟩
      · intro hm; rw [hr] at hm; simp at hm
      · intro hm; rw [hr] at hm; simp at hm
      · intro he; rw [hr] at he; simp [jsonError, uploadCreated] at he
    · rw [if_neg hs] at hr
      rcases henv : env.s3PutResult with e | u
      · rw [henv] at hr
        refine ⟨Or.inr (Or.inl (by rw [hr])), ?_, ?_, rfl, ?_⟩
        · intro hm; rw [hr] at hm; simp [e1, e2] at hm
        · intro hm; rw [hr] at hm; simp [e1, e3] at hm
        · intro he; rw [hr] at he; simp [jsonError, uploadCreated] at he
      · rw [henv] at hr
        rcases hput : env.dynamoPutResult with e | u2
        · rw [hput] at hr
          refine ⟨Or.inr (Or.inr (Or.inl (by rw [hr]))), ?_, ?_, rfl, ?_⟩
          · intro _; cases u; rfl
          · intro hm; rw [hr] at hm; simp [e1, e2, e3] at hm
          · intro he; rw [hr] at he; simp [jsonError, uploadCreated] at he
        · rw [hput] at hr
          rcases hupd : env.dynamoUpdateResult with e | u3
          · rw [hupd] at hr
            refine ⟨Or.inr (Or.inr (Or.inr (by rw [hr]))), ?_, ?_, rfl, ?_⟩
            · intro _; cases u; rfl
            · intro _; cases u; cases u2; exact ⟨rfl, rfl⟩
            · intro he; rw [hr] at he; simp [jsonError, uploadCreated] at he
          · rw [hupd] at hr
            refine ⟨Or.inr (Or.inr (Or.inr (by rw [hr]))), ?_, ?_, rfl, ?_⟩
            · intro _; cases u; rfl
            · intro _; cases u; cases u2; exact ⟨rfl, rfl⟩
            · intro _
              cases u3
              exact ⟨by rw [hr], rfl⟩

/-- Witness for claim C8: with every storage call succeeding, the trace
is exactly the blob write, the record write and the status update, in
that order. -/
theorem upload_effect_ordering_witness :
    (uploadFile emptyJsonParse allOkEnv uuid0 now0 uploadedAt0 bucket0
        ⟨some textFile0, none⟩).2
      = [Effect.s3PutObject (generateS3Key now0 "notes.txt".data uuid0)
          "text/plain".data uuid0 "notes.txt".data "anonymous".data,
         Effect.dynamoPutItem
           (uploadRecord textFile0 emptyUserMetadata uuid0 now0 uploadedAt0
             bucket0),
         Effect.dynamoUpdateStatus uuid0 FileStatus.processing] := by
  have h := upload_effect_ordering emptyJsonParse allOkEnv uuid0 now0
    uploadedAt0 bucket0 textFile0 none emptyUserMetadata rfl
  have h2 := (h.2.2.2.2 (by decide)).1
  rw [h2]
  decide

/-- Claim C10: deleteFile and getDownloadUrl perform no id-syntax
validation; for an id failing the UUID format (and hence naming no
record) both go straight to the record lookup and answer 404, not
400.  The hypothesis on the format is recorded to mirror the claim; it
is not needed, because neither handler inspects the id. -/
theorem delete_download_no_id_validation
    (storeGet : Str → Except Str (Option FileMetadata))
    (s3DeleteResult dynamoDeleteResult : Except Str Unit)
    (presign : Str → Except Str Str) (fileId : Str)
    (_hmal : isUuidFormat fileId = false)
    (hmiss : storeGet fileId = Except.ok none) :
    deleteFile storeGet s3DeleteResult dynamoDeleteResult fileId
      = (jsonError 404 "File not found".data,
          [Effect.dynamoGetItem fileId]) ∧
    getDownloadUrl storeGet presign fileId
      = (jsonError 404 "File not found".data,
          [Effect.dynamoGetItem fileId]) ∧
    (jsonError 404 "File not found".data).status = 404 := by
  refine ⟨?_, ?_, rfl⟩
  · simp [deleteFile, hmiss]
  · simp [getDownloadUrl, hmiss]

/-- Witness for claim C10 at the literal id invalid-id and an empty
store. -/
theorem delete_download_no_id_validation_witness :
    deleteFile (fun _ => Except.ok none) (Except.ok ()) (Except.ok ())
        "invalid-id".data
      = (jsonError 404 "File not found".data,
          [Effect.dynamoGetItem "invalid-id".data]) ∧
    getDownloadUrl (fun _ => Except.ok none)
        (fun _ => Except.ok "url".data) "invalid-id".data
      = (jsonError 404 "File not found".data,
          [Effect.dynamoGetItem "invalid-id".data]) := by
  have h := delete_download_no_id_validation (fun _ => Except.ok none)
    (Except.ok ()) (Except.ok ()) (fun _ => Except.ok "url".data)
    "invalid-id".data (by decide) rfl
  exact ⟨h.1, h.2.1⟩

end UploadAws
